import Mathlib

/-!
Shallow embedding of the meal_max battle application.

Source files embedded:
  * meal_max/models/kitchen_model.py  — the catalog store (`Meal` dataclass,
    `create_meal`, `delete_meal`, `get_leaderboard`, `get_meal_by_id`,
    `get_meal_by_name`, `update_meal_stats`) over a sqlite table, modelled
    here as a list of rows;
  * meal_max/models/battle_model.py   — the battle engine (`BattleModel`
    with `battle`, `clear_combatants`, `get_battle_score`, `prep_combatant`)
    whose state is the combatant pool, modelled as a list of meals.

Python floats are modelled as rationals, the database as a list of rows.
A raised `ValueError` / `sqlite3` error is modelled by an error value of
the taxonomy below; an operation that raises before committing leaves the
caller's database value untouched (the functions return the new database
only on success).
-/

namespace MealMax

/-- Error taxonomy of the spec (§7): every `ValueError` raised by the code is
classified by the condition that raised it. -/
inductive MealError where
  | invalidArgument
  | conflict
  | notFound
  | gone
  | full
  | invalidState

deriving instance DecidableEq, Repr for MealError

/-- The `Meal` dataclass of kitchen_model.py (id, meal, cuisine, price,
difficulty).  `price` is a Python float, modelled as a rational;
`difficulty` is a plain string in the source. -/
structure Meal where
  id : Int
  meal : String
  cuisine : String
  price : ℚ
  difficulty : String

deriving instance DecidableEq, Repr for Meal

/-- `Meal.__post_init__`: raises if `self.price < 0`, and if the difficulty
is not one of LOW, MED, HIGH; otherwise the dataclass is constructed. -/
def mealPostInit (m : Meal) : Except MealError Meal :=
  if m.price < 0 then .error .invalidArgument
  else if m.difficulty ∈ (["LOW", "MED", "HIGH"] : List String) then .ok m
  else .error .invalidArgument

/-- One row of the `meals` table: the meal columns plus the `battles`,
`wins` counters and the soft-delete flag. -/
structure MealRow where
  id : Int
  meal : String
  cuisine : String
  price : ℚ
  difficulty : String
  battles : Nat
  wins : Nat
  deleted : Bool

deriving instance DecidableEq, Repr for MealRow

/-- The database: the list of rows of the `meals` table, in storage order. -/
abbrev DB := List MealRow

/-- `SELECT ... FROM meals WHERE id = ?` followed by `fetchone()`: the first
row with the given id, if any. -/
def findRow (db : DB) (meal_id : Int) : Option MealRow :=
  db.find? (fun r => r.id == meal_id)

/-- `UPDATE meals SET ... WHERE id = ?`: applies `f` to every row whose id
matches. -/
def setRow (db : DB) (meal_id : Int) (f : MealRow → MealRow) : DB :=
  db.map (fun r => if r.id == meal_id then f r else r)

/-- Fresh autoincrement id for an inserted row. -/
def freshId (db : DB) : Int :=
  (db.map (fun r => r.id)).foldr max 0 + 1

/-- `create_meal` of kitchen_model.py: rejects a non-positive price and an
unknown difficulty, then inserts; a duplicate name (the table's UNIQUE
constraint spans soft-deleted rows too) raises the duplicate-name error. -/
def create_meal (db : DB) (meal cuisine : String) (price : ℚ) (difficulty : String) :
    Except MealError DB :=
  if price ≤ 0 then .error .invalidArgument
  else if difficulty ∈ (["LOW", "MED", "HIGH"] : List String) then
    if db.any (fun r => r.meal == meal) then .error .conflict
    else .ok (db ++ [{ id := freshId db, meal := meal, cuisine := cuisine,
                       price := price, difficulty := difficulty,
                       battles := 0, wins := 0, deleted := false }])
  else .error .invalidArgument

/-- `delete_meal` of kitchen_model.py: looks the row up; no row raises
not-found, an already deleted row raises the has-been-deleted error, and
otherwise the deleted flag is set. -/
def delete_meal (db : DB) (meal_id : Int) : Except MealError DB :=
  match findRow db meal_id with
  | none => .error .notFound
  | some r =>
    if r.deleted then .error .gone
    else .ok (setRow db meal_id (fun row => { row with deleted := true }))

/-- `get_meal_by_id` of kitchen_model.py: no row raises not-found, a deleted
row raises the has-been-deleted error, otherwise the `Meal` dataclass is
constructed from the row (running `__post_init__`). -/
def get_meal_by_id (db : DB) (meal_id : Int) : Except MealError Meal :=
  match findRow db meal_id with
  | none => .error .notFound
  | some r =>
    if r.deleted then .error .gone
    else mealPostInit { id := r.id, meal := r.meal, cuisine := r.cuisine,
                        price := r.price, difficulty := r.difficulty }

/-- `update_meal_stats` of kitchen_model.py: first the existence/deleted
check (not-found, then has-been-deleted), then the outcome label drives the
counter update; an unknown label raises the invalid-result error. -/
def update_meal_stats (db : DB) (meal_id : Int) (result : String) :
    Except MealError DB :=
  match findRow db meal_id with
  | none => .error .notFound
  | some r =>
    if r.deleted then .error .gone
    else if result = "win" then
      .ok (setRow db meal_id (fun row => { row with battles := row.battles + 1,
                                                    wins := row.wins + 1 }))
    else if result = "loss" then
      .ok (setRow db meal_id (fun row => { row with battles := row.battles + 1 }))
    else .error .invalidArgument

/-- One entry of the leaderboard payload: the row's columns with the win
percentage annotation. -/
structure LeaderboardEntry where
  id : Int
  meal : String
  cuisine : String
  price : ℚ
  difficulty : String
  battles : Nat
  wins : Nat
  win_pct : ℚ

deriving instance DecidableEq, Repr for LeaderboardEntry

/-- Round-half-to-even on a rational, to an integer: the rounding Python's
`round` applies. -/
def roundHalfEven (q : ℚ) : Int :=
  if q - ⌊q⌋ < 1/2 then ⌊q⌋
  else if 1/2 < q - ⌊q⌋ then ⌊q⌋ + 1
  else if 2 ∣ ⌊q⌋ then ⌊q⌋ else ⌊q⌋ + 1

/-- Python's `round(q, 1)`: round to one decimal place. -/
def round1 (q : ℚ) : ℚ := (roundHalfEven (q * 10) : ℚ) / 10

/-- The raw `wins * 1.0 / battles` ratio the leaderboard query computes. -/
def win_pct_raw (r : MealRow) : ℚ := (r.wins : ℚ) / (r.battles : ℚ)

/-- `WHERE deleted = false AND battles > 0`: the rows the leaderboard query
selects, in storage order. -/
def leaderboardRows (db : DB) : List MealRow :=
  db.filter (fun r => !r.deleted && decide (0 < r.battles))

/-- Builds one leaderboard dictionary from a selected row:
`win_pct = round(row_ratio * 100, 1)`. -/
def rowToEntry (r : MealRow) : LeaderboardEntry :=
  { id := r.id, meal := r.meal, cuisine := r.cuisine, price := r.price,
    difficulty := r.difficulty, battles := r.battles, wins := r.wins,
    win_pct := round1 (win_pct_raw r * 100) }

/-- `get_leaderboard` of kitchen_model.py: the sort key is validated before
the query runs (an unknown key raises the invalid-sort error); a valid key
selects the non-deleted rows with battles > 0 ordered descending — by the
raw win ratio for win_pct, by the wins counter for wins — and annotates
each with the rounded percentage. -/
def get_leaderboard (db : DB) (sort_by : String) :
    Except MealError (List LeaderboardEntry) :=
  if sort_by = "win_pct" then
    .ok (((leaderboardRows db).mergeSort
            (fun a b => decide (win_pct_raw b ≤ win_pct_raw a))).map rowToEntry)
  else if sort_by = "wins" then
    .ok (((leaderboardRows db).mergeSort
            (fun a b => decide (b.wins ≤ a.wins))).map rowToEntry)
  else .error .invalidArgument

/-- `BattleModel.get_battle_score`: `price * len(cuisine) - modifier[difficulty]`
where the modifier dictionary maps HIGH to 1, MED to 2, LOW to 3; an unknown
difficulty raises a key error, modelled by `none`. -/
def difficulty_modifier (d : String) : Option ℚ :=
  if d = "HIGH" then some 1
  else if d = "MED" then some 2
  else if d = "LOW" then some 3
  else none

/-- The score computation of `BattleModel.get_battle_score`. -/
def get_battle_score (c : Meal) : Option ℚ :=
  (difficulty_modifier c.difficulty).map
    (fun m => c.price * (c.cuisine.length : ℚ) - m)

/-- Result of one `BattleModel.battle` call: either the winner's name with
the pool and database after the call, or the raised error with the pool and
database at the moment exectution aborted; `calls` records every
`update_meal_stats` invocation the call attempted, in order. -/
inductive BattleOutcome where
  | ok (winner : String) (pool : List Meal) (db : DB) (calls : List (Int × String))
  | err (e : MealError) (pool : List Meal) (db : DB) (calls : List (Int × String))

deriving instance DecidableEq, Repr for BattleOutcome

/-- `BattleModel.battle`, with the random draw `r` passed in for
`get_random()`: fewer than two combatants raises the two-combatants error;
otherwise the two scores give `delta = |score_1 - score_2| / 100`, the
winner is combatant 1 exactly when `delta > r`, the winner's win and the
loser's loss are persisted in that order (each commits on its own, and a
failure aborts the call), the loser is removed from the pool (first
occurrence, Python `list.remove`) and the winner's name is returned. -/
def battle (r : ℚ) (pool : List Meal) (db : DB) : BattleOutcome :=
  match pool with
  | c1 :: c2 :: _ =>
    match get_battle_score c1, get_battle_score c2 with
    | some score_1, some score_2 =>
      let delta := |score_1 - score_2| / 100
      let wl := if r < delta then (c1, c2) else (c2, c1)
      match update_meal_stats db wl.1.id "win" with
      | .error e => .err e pool db [(wl.1.id, "win")]
      | .ok db1 =>
        match update_meal_stats db1 wl.2.id "loss" with
        | .error e => .err e pool db1 [(wl.1.id, "win"), (wl.2.id, "loss")]
        | .ok db2 =>
          .ok wl.1.meal (pool.erase wl.2) db2 [(wl.1.id, "win"), (wl.2.id, "loss")]
    | _, _ => .err .invalidArgument pool db []
  | _ => .err .invalidState pool db []

/-- `BattleModel.clear_combatants`: `self.combatants.clear()`. -/
def clear_combatants (_ : List Meal) : List Meal := []

/-- `BattleModel.prep_combatant`: raises the list-is-full error when the
pool already holds two combatants, otherwise appends. -/
def prep_combatant (pool : List Meal) (c : Meal) : Except MealError (List Meal) :=
  if 2 ≤ pool.length then .error .full
  else .ok (pool ++ [c])

/-- One operation on a `BattleModel` (the random draw of a battle is the
operation's parameter, standing for the external `get_random()`). -/
inductive Op where
  | prep (c : Meal)
  | clear
  | resolve (r : ℚ)

/-- Caller-side step: runs one operation on the pool and database; a raised
error leaves the caller's state as the operation left it (unchanged for
`prep_combatant`, the recorded intermediate state for `battle`). -/
def stepOp (s : List Meal × DB) (op : Op) : List Meal × DB :=
  match op with
  | .prep c =>
    match prep_combatant s.1 c with
    | .ok p => (p, s.2)
    | .error _ => s
  | .clear => (clear_combatants s.1, s.2)
  | .resolve r =>
    match battle r s.1 s.2 with
    | .ok _ p db _ => (p, db)
    | .err _ p db _ => (p, db)

/-! Concrete fixtures used by the witness theorems: the two meals of the
spec's worked example (§8) and small databases. -/

/-- The spec's first example combatant: price 12.5, Italian (length 7), MED. -/
def pastaMeal : Meal :=
  { id := 1, meal := "Pasta", cuisine := "Italian", price := 25/2, difficulty := "MED" }

/-- The spec's second example combatant: price 8.0, American (length 8), LOW. -/
def burgerMeal : Meal :=
  { id := 2, meal := "Burger", cuisine := "American", price := 8, difficulty := "LOW" }

/-- Stored row for `pastaMeal`, no battles yet. -/
def pastaRow : MealRow :=
  { id := 1, meal := "Pasta", cuisine := "Italian", price := 25/2,
    difficulty := "MED", battles := 0, wins := 0, deleted := false }

/-- Stored row for `burgerMeal`, no battles yet. -/
def burgerRow : MealRow :=
  { id := 2, meal := "Burger", cuisine := "American", price := 8,
    difficulty := "LOW", battles := 0, wins := 0, deleted := false }

/-- Database holding the two example rows. -/
def dbTwo : DB := [pastaRow, burgerRow]

/-- A soft-deleted row. -/
def goneRow : MealRow :=
  { id := 7, meal := "Ghost", cuisine := "Thai", price := 4,
    difficulty := "HIGH", battles := 3, wins := 1, deleted := true }

/-- Database holding only the soft-deleted row. -/
def dbGone : DB := [goneRow]

/-! Helper lemmas shared by several of the theorems below. -/

/-- Unfolds `battle` on a pool of at least two combatants once both scores
are known. -/
theorem battle_eq_of_scores (c1 c2 : Meal) (rest : List Meal) (r s1 s2 : ℚ)
    (db : DB) (h1 : get_battle_score c1 = some s1)
    (h2 : get_battle_score c2 = some s2) :
    battle r (c1 :: c2 :: rest) db =
      (let wl := if r < |s1 - s2| / 100 then (c1, c2) else (c2, c1)
       match update_meal_stats db wl.1.id "win" with
       | .error e => .err e (c1 :: c2 :: rest) db [(wl.1.id, "win")]
       | .ok db1 =>
         match update_meal_stats db1 wl.2.id "loss" with
         | .error e => .err e (c1 :: c2 :: rest) db1
             [(wl.1.id, "win"), (wl.2.id, "loss")]
         | .ok db2 => .ok wl.1.meal ((c1 :: c2 :: rest).erase wl.2) db2
             [(wl.1.id, "win"), (wl.2.id, "loss")]) := by
  simp only [battle, h1, h2]

/-- Erasing the second of two distinct-or-equal meals leaves a singleton
equal to the first. -/
theorem erase_pair_snd (c1 c2 : Meal) : [c1, c2].erase c2 = [c1] := by
  by_cases h : c1 = c2
  · subst h
    simp [List.erase_cons]
  · simp [List.erase_cons, h]

/-- Erasing the first of two meals leaves the second. -/
theorem erase_pair_fst (c1 c2 : Meal) : [c1, c2].erase c1 = [c2] := by
  simp [List.erase_cons]

/-- C1: for a pool of exactly two combatants with valid difficulties (their
scores are `s1`, `s2`) and any randomness value `r` in `[0,1)`, `battle`
decides the winner by `delta = |s1 - s2| / 100`: combatant 1's name is
returned when `delta > r` and combatant 2's name otherwise (so a tie
`delta = r` makes combatant 2 the winner), the persistence calls succeeding. -/
theorem battle_winner_by_delta (c1 c2 : Meal) (r s1 s2 : ℚ) (db : DB)
    (h1 : get_battle_score c1 = some s1) (h2 : get_battle_score c2 = some s2)
    (hr0 : 0 ≤ r) (hr1 : r < 1) :
    (|s1 - s2| / 100 > r →
      ∀ db1 db2, update_meal_stats db c1.id "win" = .ok db1 →
        update_meal_stats db1 c2.id "loss" = .ok db2 →
        battle r [c1, c2] db = .ok c1.meal [c1] db2
          [(c1.id, "win"), (c2.id, "loss")]) ∧
    (¬ |s1 - s2| / 100 > r →
      ∀ db1 db2, update_meal_stats db c2.id "win" = .ok db1 →
        update_meal_stats db1 c1.id "loss" = .ok db2 →
        battle r [c1, c2] db = .ok c2.meal [c2] db2
          [(c2.id, "win"), (c1.id, "loss")]) := by
  rw [show ([c1, c2] : List Meal) = c1 :: c2 :: [] from rfl]
  constructor
  · intro hgt db1 db2 hu1 hu2
    rw [battle_eq_of_scores c1 c2 [] r s1 s2 db h1 h2]
    simp only [if_pos hgt, hu1, hu2]
    rw [show (c1 :: c2 :: [] : List Meal) = [c1, c2] from rfl, erase_pair_snd]
  · intro hle db1 db2 hu1 hu2
    rw [battle_eq_of_scores c1 c2 [] r s1 s2 db h1 h2]
    simp only [if_neg hle, hu1, hu2]
    rw [show (c1 :: c2 :: [] : List Meal) = [c1, c2] from rfl, erase_pair_fst]

/-- Database after pasta's win was recorded on `dbTwo`. -/
def dbPastaWin : DB := [{ pastaRow with battles := 1, wins := 1 }, burgerRow]

/-- Database after pasta's win and burger's loss were recorded on `dbTwo`. -/
def dbPastaBeatsBurger : DB :=
  [{ pastaRow with battles := 1, wins := 1 }, { burgerRow with battles := 1 }]

/-- Database after burger's win was recorded on `dbTwo`. -/
def dbBurgerWin : DB := [pastaRow, { burgerRow with battles := 1, wins := 1 }]

/-- Database after burger's win and pasta's loss were recorded on `dbTwo`. -/
def dbBurgerBeatsPasta : DB :=
  [{ pastaRow with battles := 1 }, { burgerRow with battles := 1, wins := 1 }]

/-- Witness for C1: the spec's worked example — scores 85.5 and 61.0 give
delta 0.245, so r = 0.1 makes combatant 1 win and r = 0.3 makes
combatant 2 win. -/
theorem battle_winner_by_delta_witness :
    battle (1/10) [pastaMeal, burgerMeal] dbTwo =
      .ok pastaMeal.meal [pastaMeal] dbPastaBeatsBurger
        [(pastaMeal.id, "win"), (burgerMeal.id, "loss")] ∧
    battle (3/10) [pastaMeal, burgerMeal] dbTwo =
      .ok burgerMeal.meal [burgerMeal] dbBurgerBeatsPasta
        [(burgerMeal.id, "win"), (pastaMeal.id, "loss")] :=
  ⟨(battle_winner_by_delta pastaMeal burgerMeal (1/10)
      (25/2 * (7:ℚ) - 2) (8 * (8:ℚ) - 3) dbTwo rfl rfl
      (by norm_num) (by norm_num)).1
    (by
      rw [abs_of_nonneg (by norm_num : (0:ℚ) ≤ (25/2 * (7:ℚ) - 2) - (8 * (8:ℚ) - 3))]
      norm_num)
    dbPastaWin dbPastaBeatsBurger rfl rfl,
   (battle_winner_by_delta pastaMeal burgerMeal (3/10)
      (25/2 * (7:ℚ) - 2) (8 * (8:ℚ) - 3) dbTwo rfl rfl
      (by norm_num) (by norm_num)).2
    (by
      rw [abs_of_nonneg (by norm_num : (0:ℚ) ≤ (25/2 * (7:ℚ) - 2) - (8 * (8:ℚ) - 3))]
      norm_num)
    dbBurgerWin dbBurgerBeatsPasta rfl rfl⟩

/-- C2: for a meal whose difficulty is LOW, MED or HIGH, `get_battle_score`
is exactly `price * (length of cuisine) - penalty` with penalty 1 for HIGH,
2 for MED and 3 for LOW (a pure function of the meal's attributes). -/
theorem get_battle_score_formula (m : Meal) :
    (m.difficulty = "HIGH" →
      get_battle_score m = some (m.price * (m.cuisine.length : ℚ) - 1)) ∧
    (m.difficulty = "MED" →
      get_battle_score m = some (m.price * (m.cuisine.length : ℚ) - 2)) ∧
    (m.difficulty = "LOW" →
      get_battle_score m = some (m.price * (m.cuisine.length : ℚ) - 3)) := by
  refine ⟨fun h => ?_, fun h => ?_, fun h => ?_⟩ <;>
    simp [get_battle_score, difficulty_modifier, h]

/-- Witness for C2: the MED example meal scores 12.5 × 7 − 2. -/
theorem get_battle_score_formula_witness :
    get_battle_score pastaMeal =
      some (pastaMeal.price * (pastaMeal.cuisine.length : ℚ) - 2) :=
  (get_battle_score_formula pastaMeal).2.1 rfl

/-- C3: with two combatants prepped, if either persistence call of a battle
fails, the error propagates as the battle's outcome and the pool component
of the outcome still holds both combatants — the loser was not removed
(the first call's committed update is kept when the second call fails). -/
theorem battle_stats_error_propagates (c1 c2 : Meal) (r s1 s2 : ℚ) (db : DB)
    (h1 : get_battle_score c1 = some s1) (h2 : get_battle_score c2 = some s2) :
    (∀ e, |s1 - s2| / 100 > r →
      update_meal_stats db c1.id "win" = .error e →
      battle r [c1, c2] db = .err e [c1, c2] db [(c1.id, "win")]) ∧
    (∀ e db1, |s1 - s2| / 100 > r →
      update_meal_stats db c1.id "win" = .ok db1 →
      update_meal_stats db1 c2.id "loss" = .error e →
      battle r [c1, c2] db = .err e [c1, c2] db1
        [(c1.id, "win"), (c2.id, "loss")]) ∧
    (∀ e, ¬ |s1 - s2| / 100 > r →
      update_meal_stats db c2.id "win" = .error e →
      battle r [c1, c2] db = .err e [c1, c2] db [(c2.id, "win")]) ∧
    (∀ e db1, ¬ |s1 - s2| / 100 > r →
      update_meal_stats db c2.id "win" = .ok db1 →
      update_meal_stats db1 c1.id "loss" = .error e →
      battle r [c1, c2] db = .err e [c1, c2] db1
        [(c2.id, "win"), (c1.id, "loss")]) := by
  rw [show ([c1, c2] : List Meal) = c1 :: c2 :: [] from rfl]
  refine ⟨fun e hgt hu1 => ?_, fun e db1 hgt hu1 hu2 => ?_,
          fun e hle hu1 => ?_, fun e db1 hle hu1 hu2 => ?_⟩ <;>
    rw [battle_eq_of_scores c1 c2 [] r s1 s2 db h1 h2]
  · simp only [if_pos hgt, hu1]
  · simp only [if_pos hgt, hu1, hu2]
  · simp only [if_neg hle, hu1]
  · simp only [if_neg hle, hu1, hu2]

/-- Witness for C3: on an empty database the winner's stat update fails
with not-found and the pool keeps both combatants; with only the winner
stored, the loser's update fails after the winner's commit, and the pool
again keeps both combatants. -/
theorem battle_stats_error_propagates_witness :
    battle (1/10) [pastaMeal, burgerMeal] [] =
      .err .notFound [pastaMeal, burgerMeal] [] [(pastaMeal.id, "win")] ∧
    battle (1/10) [pastaMeal, burgerMeal] [pastaRow] =
      .err .notFound [pastaMeal, burgerMeal]
        [{ pastaRow with battles := 1, wins := 1 }]
        [(pastaMeal.id, "win"), (burgerMeal.id, "loss")] :=
  ⟨(battle_stats_error_propagates pastaMeal burgerMeal (1/10)
      (25/2 * (7:ℚ) - 2) (8 * (8:ℚ) - 3) [] rfl rfl).1 .notFound
    (by
      rw [abs_of_nonneg (by norm_num : (0:ℚ) ≤ (25/2 * (7:ℚ) - 2) - (8 * (8:ℚ) - 3))]
      norm_num)
    rfl,
   (battle_stats_error_propagates pastaMeal burgerMeal (1/10)
      (25/2 * (7:ℚ) - 2) (8 * (8:ℚ) - 3) [pastaRow] rfl rfl).2.1 .notFound
    [{ pastaRow with battles := 1, wins := 1 }]
    (by
      rw [abs_of_nonneg (by norm_num : (0:ℚ) ≤ (25/2 * (7:ℚ) - 2) - (8 * (8:ℚ) - 3))]
      norm_num)
    rfl rfl⟩

/-- C5: a battle with fewer than two combatants aborts with the
two-combatants-must-be-prepped error, attempts no persistence call, and
leaves the pool and database unchanged. -/
theorem battle_requires_two_combatants (r : ℚ) (pool : List Meal) (db : DB)
    (h : pool.length < 2) :
    battle r pool db = .err .invalidState pool db [] := by
  cases pool with
  | nil => rfl
  | cons c t =>
    cases t with
    | nil => rfl
    | cons c2 t2 =>
      simp only [List.length_cons] at h
      omega

/-- Witness for C5: a one-combatant pool. -/
theorem battle_requires_two_combatants_witness :
    battle 0 [pastaMeal] dbTwo = .err .invalidState [pastaMeal] dbTwo [] :=
  battle_requires_two_combatants 0 [pastaMeal] dbTwo (by decide)

/-- C4: a successful battle on a pool of exactly two combatants leaves a
pool of size exactly one whose element is the winner, returns the winner's
name, attempts exactly the two stat updates — win for the winner then loss
for the loser — and its final database is the result of those two updates
in that order. -/
theorem battle_success_postcondition (c1 c2 : Meal) (r s1 s2 : ℚ)
    (db db' : DB) (w : String) (p' : List Meal) (calls : List (Int × String))
    (h1 : get_battle_score c1 = some s1) (h2 : get_battle_score c2 = some s2)
    (hb : battle r [c1, c2] db = .ok w p' db' calls) :
    p'.length = 1 ∧
    p' = [if |s1 - s2| / 100 > r then c1 else c2] ∧
    w = (if |s1 - s2| / 100 > r then c1 else c2).meal ∧
    calls = [((if |s1 - s2| / 100 > r then c1 else c2).id, "win"),
             ((if |s1 - s2| / 100 > r then c2 else c1).id, "loss")] ∧
    ∃ db1,
      update_meal_stats db (if |s1 - s2| / 100 > r then c1 else c2).id "win" = .ok db1 ∧
      update_meal_stats db1 (if |s1 - s2| / 100 > r then c2 else c1).id "loss" = .ok db' := by
  rw [battle_eq_of_scores c1 c2 [] r s1 s2 db h1 h2] at hb
  by_cases hgt : r < |s1 - s2| / 100
  · simp only [if_pos hgt] at hb
    cases hu1 : update_meal_stats db c1.id "win" with
    | error e =>
      simp only [hu1] at hb
      exact BattleOutcome.noConfusion hb
    | ok db1 =>
      simp only [hu1] at hb
      cases hu2 : update_meal_stats db1 c2.id "loss" with
      | error e =>
        simp only [hu2] at hb
        exact BattleOutcome.noConfusion hb
      | ok db2 =>
        simp only [hu2] at hb
        injection hb with hw hp hdb hcalls
        subst hw hp hdb hcalls
        refine ⟨?_, ?_, ?_, ?_, db1, ?_, ?_⟩
        · rw [erase_pair_snd]
          rfl
        · simp only [gt_iff_lt, if_pos hgt, erase_pair_snd]
        · simp only [gt_iff_lt, if_pos hgt]
        · simp only [gt_iff_lt, if_pos hgt]
        · simp only [gt_iff_lt, if_pos hgt]
          exact hu1
        · simp only [gt_iff_lt, if_pos hgt]
          exact hu2
  · simp only [if_neg hgt] at hb
    cases hu1 : update_meal_stats db c2.id "win" with
    | error e =>
      simp only [hu1] at hb
      exact BattleOutcome.noConfusion hb
    | ok db1 =>
      simp only [hu1] at hb
      cases hu2 : update_meal_stats db1 c1.id "loss" with
      | error e =>
        simp only [hu2] at hb
        exact BattleOutcome.noConfusion hb
      | ok db2 =>
        simp only [hu2] at hb
        injection hb with hw hp hdb hcalls
        subst hw hp hdb hcalls
        refine ⟨?_, ?_, ?_, ?_, db1, ?_, ?_⟩
        · rw [erase_pair_fst]
          rfl
        · simp only [gt_iff_lt, if_neg hgt, erase_pair_fst]
        · simp only [gt_iff_lt, if_neg hgt]
        · simp only [gt_iff_lt, if_neg hgt]
        · simp only [gt_iff_lt, if_neg hgt]
          exact hu1
        · simp only [gt_iff_lt, if_neg hgt]
          exact hu2

/-- Witness for C4: the r = 0.1 battle of the worked example succeeds and
satisfies the postcondition. -/
theorem battle_success_postcondition_witness :
    [pastaMeal].length = 1 ∧
    [pastaMeal] =
      [if |(25/2 * (7:ℚ) - 2) - (8 * (8:ℚ) - 3)| / 100 > 1/10 then pastaMeal else burgerMeal] ∧
    "Pasta" =
      (if |(25/2 * (7:ℚ) - 2) - (8 * (8:ℚ) - 3)| / 100 > 1/10 then pastaMeal else burgerMeal).meal ∧
    [((1 : Int), "win"), ((2 : Int), "loss")] =
      [((if |(25/2 * (7:ℚ) - 2) - (8 * (8:ℚ) - 3)| / 100 > 1/10 then pastaMeal else burgerMeal).id, "win"),
       ((if |(25/2 * (7:ℚ) - 2) - (8 * (8:ℚ) - 3)| / 100 > 1/10 then burgerMeal else pastaMeal).id, "loss")] ∧
    ∃ db1,
      update_meal_stats dbTwo
        (if |(25/2 * (7:ℚ) - 2) - (8 * (8:ℚ) - 3)| / 100 > 1/10 then pastaMeal else burgerMeal).id
        "win" = .ok db1 ∧
      update_meal_stats db1
        (if |(25/2 * (7:ℚ) - 2) - (8 * (8:ℚ) - 3)| / 100 > 1/10 then burgerMeal else pastaMeal).id
        "loss" = .ok dbPastaBeatsBurger :=
  battle_success_postcondition pastaMeal burgerMeal (1/10)
    (25/2 * (7:ℚ) - 2) (8 * (8:ℚ) - 3) dbTwo dbPastaBeatsBurger
    "Pasta" [pastaMeal] [((1 : Int), "win"), ((2 : Int), "loss")] rfl rfl
    (by
      have hcmp : ((1:ℚ)/10 < |(25/2 * (7:ℚ) - 2) - (8 * (8:ℚ) - 3)| / 100) := by
        rw [abs_of_nonneg (by norm_num : (0:ℚ) ≤ (25/2 * (7:ℚ) - 2) - (8 * (8:ℚ) - 3))]
        norm_num
      rw [battle_eq_of_scores pastaMeal burgerMeal [] (1/10)
            (25/2 * (7:ℚ) - 2) (8 * (8:ℚ) - 3) dbTwo rfl rfl]
      simp only [if_pos hcmp]
      rfl)

/-- Every battle outcome either succeeds with a pool obtained by erasing a
pool member, or fails with the pool unchanged. -/
theorem battle_pool_shape (r : ℚ) (pool : List Meal) (db : DB) :
    (∃ x w p' db' calls, x ∈ pool ∧
      battle r pool db = .ok w p' db' calls ∧ p' = pool.erase x) ∨
    (∃ e db'' calls, battle r pool db = .err e pool db'' calls) := by
  cases pool with
  | nil => exact .inr ⟨.invalidState, db, [], rfl⟩
  | cons c1 t =>
    cases t with
    | nil => exact .inr ⟨.invalidState, db, [], rfl⟩
    | cons c2 rest =>
      cases hs1 : get_battle_score c1 with
      | none =>
        refine .inr ⟨.invalidArgument, db, [], ?_⟩
        simp only [battle, hs1]
      | some s1 =>
        cases hs2 : get_battle_score c2 with
        | none =>
          refine .inr ⟨.invalidArgument, db, [], ?_⟩
          simp only [battle, hs1, hs2]
        | some s2 =>
          rw [battle_eq_of_scores c1 c2 rest r s1 s2 db hs1 hs2]
          by_cases hgt : r < |s1 - s2| / 100
          · simp only [if_pos hgt]
            cases hu1 : update_meal_stats db c1.id "win" with
            | error e =>
              simp only [hu1]
              exact .inr ⟨e, db, [(c1.id, "win")], rfl⟩
            | ok db1 =>
              simp only [hu1]
              cases hu2 : update_meal_stats db1 c2.id "loss" with
              | error e =>
                simp only [hu2]
                exact .inr ⟨e, db1, [(c1.id, "win"), (c2.id, "loss")], rfl⟩
              | ok db2 =>
                simp only [hu2]
                exact .inl ⟨c2, c1.meal, (c1 :: c2 :: rest).erase c2, db2,
                  [(c1.id, "win"), (c2.id, "loss")],
                  List.mem_cons_of_mem c1 (List.mem_cons_self c2 rest), rfl, rfl⟩
          · simp only [if_neg hgt]
            cases hu1 : update_meal_stats db c2.id "win" with
            | error e =>
              simp only [hu1]
              exact .inr ⟨e, db, [(c2.id, "win")], rfl⟩
            | ok db1 =>
              simp only [hu1]
              cases hu2 : update_meal_stats db1 c1.id "loss" with
              | error e =>
                simp only [hu2]
                exact .inr ⟨e, db1, [(c2.id, "win"), (c1.id, "loss")], rfl⟩
              | ok db2 =>
                simp only [hu2]
                exact .inl ⟨c1, c2.meal, (c1 :: c2 :: rest).erase c1, db2,
                  [(c2.id, "win"), (c1.id, "loss")],
                  List.mem_cons_self c1 (c2 :: rest), rfl, rfl⟩

/-- One operation never grows the pool beyond two combatants. -/
theorem stepOp_length_le (s : List Meal × DB) (op : Op) (h : s.1.length ≤ 2) :
    (stepOp s op).1.length ≤ 2 := by
  cases op with
  | prep c =>
    simp only [stepOp, prep_combatant]
    by_cases hfull : 2 ≤ s.1.length
    · simp only [if_pos hfull]
      exact h
    · simp only [if_neg hfull]
      simp only [List.length_append, List.length_cons, List.length_nil]
      omega
  | clear =>
    simp only [stepOp, clear_combatants, List.length_nil]
    omega
  | resolve r =>
    rcases battle_pool_shape r s.1 s.2 with
      ⟨x, w, p', db', calls, hmem, hb, hp⟩ | ⟨e, db'', calls, hb⟩
    · simp only [stepOp, hb, hp]
      calc (s.1.erase x).length ≤ s.1.length := by
            rw [List.length_erase]
            split <;> omega
        _ ≤ 2 := h
    · simp only [stepOp, hb]
      exact h

/-- The pool-size bound is preserved along any operation sequence. -/
theorem foldl_stepOp_length (ops : List Op) (s : List Meal × DB)
    (h : s.1.length ≤ 2) : (ops.foldl stepOp s).1.length ≤ 2 := by
  induction ops generalizing s with
  | nil => exact h
  | cons op t ih => exact ih (stepOp s op) (stepOp_length_le s op h)

/-- C6: the pool never exceeds two combatants — prepping into a full pool
fails, prepping into a non-full pool appends, clearing empties the pool,
a successful battle takes a two-combatant pool to one combatant, and along
every operation sequence from the empty pool the size stays at most 2. -/
theorem combatant_pool_bounded (ops : List Op) (dbInit : DB) :
    (∀ pool c, 2 ≤ pool.length → prep_combatant pool c = .error .full) ∧
    (∀ pool c, pool.length < 2 → prep_combatant pool c = .ok (pool ++ [c])) ∧
    (∀ pool, clear_combatants pool = []) ∧
    (∀ (r : ℚ) (c1 c2 : Meal) (db db' : DB) (w : String) (p' : List Meal)
       (calls : List (Int × String)),
      battle r [c1, c2] db = .ok w p' db' calls → p'.length = 1) ∧
    (ops.foldl stepOp ([], dbInit)).1.length ≤ 2 := by
  refine ⟨fun pool c hge => ?_, fun pool c hlt => ?_, fun pool => rfl,
    fun r c1 c2 db db' w p' calls hb => ?_,
    foldl_stepOp_length ops ([], dbInit) (by simp)⟩
  · simp only [prep_combatant, if_pos hge]
  · simp only [prep_combatant, if_neg (by omega : ¬ 2 ≤ pool.length)]
  · rcases battle_pool_shape r [c1, c2] db with
      ⟨x, w', p'', db'', calls', hmem, hb', hp⟩ | ⟨e, db'', calls', hb'⟩
    · rw [hb] at hb'
      injection hb' with hw hp2 hdb hc
      subst hp2
      rw [hp, List.length_erase, if_pos hmem]
      rfl
    · rw [hb] at hb'
      exact BattleOutcome.noConfusion hb'

/-- Witness for C6: a third prep fails on a full pool, preps append, clear
empties, and a three-prep sequence from empty leaves at most two combatants. -/
theorem combatant_pool_bounded_witness :
    prep_combatant [pastaMeal, burgerMeal] pastaMeal = .error .full ∧
    prep_combatant [] pastaMeal = .ok [pastaMeal] ∧
    clear_combatants [pastaMeal] = [] ∧
    (([Op.prep pastaMeal, Op.prep burgerMeal, Op.prep pastaMeal].foldl
        stepOp ([], dbTwo)).1.length ≤ 2) :=
  ⟨(combatant_pool_bounded [] dbTwo).1 [pastaMeal, burgerMeal] pastaMeal (by decide),
   (combatant_pool_bounded [] dbTwo).2.1 [] pastaMeal (by decide),
   (combatant_pool_bounded [] dbTwo).2.2.1 [pastaMeal],
   (combatant_pool_bounded
      [Op.prep pastaMeal, Op.prep burgerMeal, Op.prep pastaMeal] dbTwo).2.2.2.2⟩

/-- C8: on an id whose stored row is soft-deleted, `update_meal_stats`,
`get_meal_by_id` and `delete_meal` all fail with the has-been-deleted
error (and, returning an error, produce no updated database — none of them
silently no-ops). -/
theorem deleted_record_ops_fail (db : DB) (i : Int) (row : MealRow)
    (res : String) (hfind : findRow db i = some row)
    (hdel : row.deleted = true) :
    update_meal_stats db i res = .error .gone ∧
    get_meal_by_id db i = .error .gone ∧
    delete_meal db i = .error .gone := by
  unfold update_meal_stats get_meal_by_id delete_meal
  rw [hfind]
  simp [hdel]

/-- Witness for C8: the soft-deleted row of `dbGone`. -/
theorem deleted_record_ops_fail_witness :
    update_meal_stats dbGone 7 "win" = .error .gone ∧
    get_meal_by_id dbGone 7 = .error .gone ∧
    delete_meal dbGone 7 = .error .gone :=
  deleted_record_ops_fail dbGone 7 goneRow "win" rfl rfl

/-- C9: `create_meal` rejects a non-positive price, but the `Meal`
dataclass's own validation only rejects a negative price — a `Meal` with
price 0 is constructed successfully, although the checker's error message
says the price must be positive. -/
theorem meal_zero_price_constructed :
    mealPostInit
        { id := 1, meal := "Toast", cuisine := "French", price := 0, difficulty := "LOW" } =
      .ok { id := 1, meal := "Toast", cuisine := "French", price := 0, difficulty := "LOW" } ∧
    create_meal [] "Toast" "French" 0 "LOW" = .error .invalidArgument := by
  constructor
  · have hlt : ¬ ((0:ℚ) < 0) := lt_irrefl 0
    simp [mealPostInit]
  · simp [create_meal]

/-- C10: `update_meal_stats` validates the record before the outcome
label — an unknown id gives not-found and a soft-deleted id gives the
has-been-deleted error whatever the outcome string is; only on an existing,
non-deleted record is the label checked, an invalid label failing with the
invalid-result error (no counters are touched, no updated database is
produced). -/
theorem update_meal_stats_check_order (db : DB) (i : Int) (res : String) :
    (findRow db i = none → update_meal_stats db i res = .error .notFound) ∧
    (∀ row, findRow db i = some row → row.deleted = true →
      update_meal_stats db i res = .error .gone) ∧
    (∀ row, findRow db i = some row → row.deleted = false →
      res ≠ "win" → res ≠ "loss" →
      update_meal_stats db i res = .error .invalidArgument) := by
  refine ⟨fun hnone => ?_, fun row hfind hdel => ?_,
          fun row hfind hlive hw hl => ?_⟩
  · unfold update_meal_stats
    rw [hnone]
  · unfold update_meal_stats
    rw [hfind]
    simp [hdel]
  · unfold update_meal_stats
    rw [hfind]
    simp [hlive, hw, hl]

/-- Witness for C10: an invalid outcome string reports not-found on an
unknown id, has-been-deleted on a deleted id, and invalid-result on a live
record. -/
theorem update_meal_stats_check_order_witness :
    update_meal_stats [] 5 "bogus" = .error .notFound ∧
    update_meal_stats dbGone 7 "bogus" = .error .gone ∧
    update_meal_stats dbTwo 1 "bogus" = .error .invalidArgument :=
  ⟨(update_meal_stats_check_order [] 5 "bogus").1 rfl,
   (update_meal_stats_check_order dbGone 7 "bogus").2.1 goneRow rfl rfl,
   (update_meal_stats_check_order dbTwo 1 "bogus").2.2 pastaRow rfl rfl
     (by decide) (by decide)⟩

/-! Rounding and ordering lemmas for the leaderboard. -/

theorem le_roundHalfEven (q : ℚ) : ⌊q⌋ ≤ roundHalfEven q := by
  unfold roundHalfEven
  split_ifs <;> omega

theorem roundHalfEven_le (q : ℚ) : roundHalfEven q ≤ ⌊q⌋ + 1 := by
  unfold roundHalfEven
  split_ifs <;> omega

/-- Round-half-to-even is monotone. -/
theorem roundHalfEven_mono {a b : ℚ} (h : a ≤ b) :
    roundHalfEven a ≤ roundHalfEven b := by
  have hfl : ⌊a⌋ ≤ ⌊b⌋ := Int.floor_le_floor h
  rcases eq_or_lt_of_le hfl with heq | hlt
  · unfold roundHalfEven
    rw [← heq]
    split_ifs <;> first | omega | (exfalso; linarith)
  · calc roundHalfEven a ≤ ⌊a⌋ + 1 := roundHalfEven_le a
      _ ≤ ⌊b⌋ := by omega
      _ ≤ roundHalfEven b := le_roundHalfEven b

/-- Rounding to one decimal is monotone. -/
theorem round1_mono {a b : ℚ} (h : a ≤ b) : round1 a ≤ round1 b := by
  unfold round1
  have hm : roundHalfEven (a * 10) ≤ roundHalfEven (b * 10) :=
    roundHalfEven_mono (by linarith)
  exact div_le_div_of_nonneg_right (by exact_mod_cast hm) (by norm_num)

/-- The sorted selection mapped to entries is a permutation of the plain
selection mapped to entries. -/
theorem leaderboard_perm (db : DB) (cmp : MealRow → MealRow → Bool) :
    (((leaderboardRows db).mergeSort cmp).map rowToEntry).Perm
      ((leaderboardRows db).map rowToEntry) :=
  (List.mergeSort_perm (leaderboardRows db) cmp).map rowToEntry

/-- Sorting by the wins counter descending yields entries pairwise
descending in their wins field. -/
theorem leaderboard_sorted_wins (db : DB) :
    (((leaderboardRows db).mergeSort
        (fun a b => decide (b.wins ≤ a.wins))).map rowToEntry).Pairwise
      (fun x y => y.wins ≤ x.wins) := by
  have hPW : List.Pairwise
      (fun a b : MealRow => (decide (b.wins ≤ a.wins)) = true)
      ((leaderboardRows db).mergeSort (fun a b => decide (b.wins ≤ a.wins))) :=
    List.sorted_mergeSort
      (by
        intro a b c h1 h2
        simp only [decide_eq_true_eq] at h1 h2 ⊢
        omega)
      (by
        intro a b
        simp only [Bool.or_eq_true, decide_eq_true_eq]
        omega)
      (leaderboardRows db)
  refine List.Pairwise.map rowToEntry ?_ hPW
  intro a b hab
  simp only [decide_eq_true_eq] at hab
  exact hab

/-- Sorting by the raw win ratio descending yields entries pairwise
descending in their rounded win_pct annotation. -/
theorem leaderboard_sorted_pct (db : DB) :
    (((leaderboardRows db).mergeSort
        (fun a b => decide (win_pct_raw b ≤ win_pct_raw a))).map rowToEntry).Pairwise
      (fun x y => y.win_pct ≤ x.win_pct) := by
  have hPW : List.Pairwise
      (fun a b : MealRow => (decide (win_pct_raw b ≤ win_pct_raw a)) = true)
      ((leaderboardRows db).mergeSort
        (fun a b => decide (win_pct_raw b ≤ win_pct_raw a))) :=
    List.sorted_mergeSort
      (by
        intro a b c h1 h2
        simp only [decide_eq_true_eq] at h1 h2 ⊢
        exact le_trans h2 h1)
      (by
        intro a b
        simp only [Bool.or_eq_true, decide_eq_true_eq]
        exact le_total (win_pct_raw b) (win_pct_raw a))
      (leaderboardRows db)
  refine List.Pairwise.map rowToEntry ?_ hPW
  intro a b hab
  simp only [decide_eq_true_eq] at hab
  exact round1_mono (mul_le_mul_of_nonneg_right hab (by norm_num))

/-- Every entry of a mapped selection carries the rounded percentage of its
own counters. -/
theorem leaderboard_entry_pct (xs : List MealRow) (x : LeaderboardEntry)
    (hm : x ∈ xs.map rowToEntry) :
    x.win_pct = round1 ((x.wins : ℚ) / (x.battles : ℚ) * 100) := by
  rcases List.mem_map.mp hm with ⟨r, _, rfl⟩
  rfl

/-- C7: an unrecognized sort key makes `get_leaderboard` fail with the
invalid-sort error for every database (no query result is produced); the
two valid keys succeed and return exactly the non-deleted rows with
battles > 0, each annotated with win_pct = round(wins / battles × 100, 1),
ordered descending by the chosen key. -/
theorem get_leaderboard_spec (db : DB) (s : String) :
    (s ≠ "wins" → s ≠ "win_pct" → get_leaderboard db s = .error .invalidArgument) ∧
    ((s = "wins" ∨ s = "win_pct") → ∃ l, get_leaderboard db s = .ok l) ∧
    (∀ l, get_leaderboard db s = .ok l →
      l.Perm ((db.filter (fun r => !r.deleted && decide (0 < r.battles))).map rowToEntry) ∧
      (∀ x ∈ l, x.win_pct = round1 ((x.wins : ℚ) / (x.battles : ℚ) * 100)) ∧
      (s = "wins" → l.Pairwise (fun x y => y.wins ≤ x.wins)) ∧
      (s = "win_pct" → l.Pairwise (fun x y => y.win_pct ≤ x.win_pct))) := by
  by_cases hwp : s = "win_pct"
  · subst hwp
    refine ⟨fun _ h2 => absurd rfl h2, fun _ => ⟨_, rfl⟩, fun l hl => ?_⟩
    rw [show get_leaderboard db "win_pct" =
        .ok (((leaderboardRows db).mergeSort
          (fun a b => decide (win_pct_raw b ≤ win_pct_raw a))).map rowToEntry) from rfl] at hl
    injection hl with hl'
    subst hl'
    refine ⟨leaderboard_perm db _, ?_, fun h => absurd h (by decide),
      fun _ => leaderboard_sorted_pct db⟩
    intro x hx
    exact leaderboard_entry_pct _ x hx
  · by_cases hw : s = "wins"
    · subst hw
      refine ⟨fun h1 _ => absurd rfl h1, fun _ => ⟨_, rfl⟩, fun l hl => ?_⟩
      rw [show get_leaderboard db "wins" =
          .ok (((leaderboardRows db).mergeSort
            (fun a b => decide (b.wins ≤ a.wins))).map rowToEntry) from rfl] at hl
      injection hl with hl'
      subst hl'
      refine ⟨leaderboard_perm db _, ?_, fun _ => leaderboard_sorted_wins db,
        fun h => absurd h (by decide)⟩
      intro x hx
      exact leaderboard_entry_pct _ x hx
    · refine ⟨fun _ _ => ?_, fun hor => ?_, fun l hl => ?_⟩
      · simp only [get_leaderboard, if_neg hwp, if_neg hw]
      · rcases hor with h | h
        · exact absurd h hw
        · exact absurd h hwp
      · rw [show get_leaderboard db s = .error .invalidArgument from by
          simp only [get_leaderboard, if_neg hwp, if_neg hw]] at hl
        exact Except.noConfusion hl

/-- Witness for C7: a bogus sort key fails on the two-row database, and the
wins key succeeds there. -/
theorem get_leaderboard_spec_witness :
    get_leaderboard dbTwo "bogus" = .error .invalidArgument ∧
    get_leaderboard dbTwo "wins" = .ok [] :=
  ⟨(get_leaderboard_spec dbTwo "bogus").1 (by decide) (by decide),
   by simp [get_leaderboard, leaderboardRows, dbTwo, pastaRow, burgerRow]⟩

end MealMax
